import Mathlib

/-!
Shallow embedding of the NEXUS pipeline core (nexus_core/) for verification:
Python JSON-like values, dict semantics, the translation engine, the capability
graph builder, the embedding candidate search, the discovery engine and the
pipeline executor, together with theorems settling the specification claims.
-/

namespace Nexus

/-- Python/JSON value: the data moved between pipeline steps.  Numbers are
modelled as rationals (the code only stores and compares them). -/
inductive Val where
  | null
  | bool (b : Bool)
  | num (q : ℚ)
  | str (s : String)
  | arr (elems : List Val)
  | obj (fields : List (String × Val))

/-- A Python dict with string keys, in insertion order (Python 3.7+ dicts). -/
abbrev Dict := List (String × Val)

/-- Python `d.get(k)` / `d[k]` lookup: first (unique) binding for the key. -/
def dictGet? {α : Type} (d : List (String × α)) (k : String) : Option α :=
  match d with
  | [] => none
  | (k', v) :: rest => if k' = k then some v else dictGet? rest k

/-- Python `k in d`. -/
def dictContains {α : Type} (d : List (String × α)) (k : String) : Bool :=
  (dictGet? d k).isSome

/-- Python `d[k] = v`: update in place if the key exists (keeping its
position), else append at the end. -/
def dictSet {α : Type} (d : List (String × α)) (k : String) (v : α) :
    List (String × α) :=
  match d with
  | [] => [(k, v)]
  | (k', v') :: rest =>
      if k' = k then (k', v) :: rest else (k', v') :: dictSet rest k v

/-- Python truthiness of a value (`bool(v)`). -/
def truthy : Val → Bool
  | .null => false
  | .bool b => b
  | .num q => q ≠ 0
  | .str s => s ≠ ""
  | .arr l => !l.isEmpty
  | .obj l => !l.isEmpty

/-- Iterating a Python value (`for x in v`): lists yield elements, strings
yield one-character strings, dicts yield their keys; anything else raises
TypeError. -/
def pyIter : Val → Except String (List Val)
  | .arr l => .ok l
  | .str s => .ok (s.data.map fun c => .str (String.mk [c]))
  | .obj l => .ok (l.map fun kv => .str kv.1)
  | _ => .error "TypeError: object is not iterable"

/-- Lowercasing (`s.lower()`), character-wise. -/
def pyLower (s : String) : String := String.mk (s.data.map Char.toLower)

/-- One step of `str.title()`: uppercase a letter after a non-letter,
lowercase a letter after a letter. -/
def pyTitleGo : Bool → List Char → List Char
  | _, [] => []
  | prevAlpha, c :: cs =>
      (if prevAlpha then c.toLower else c.toUpper) :: pyTitleGo c.isAlpha cs

/-- Python `s.title()`. -/
def pyTitle (s : String) : String := String.mk (pyTitleGo false s.data)

/-- Character-list prefix test. -/
def charsPrefixOf : List Char → List Char → Bool
  | [], _ => true
  | _ :: _, [] => false
  | a :: as, b :: bs => a = b && charsPrefixOf as bs

/-- Character-list contiguous-substring test. -/
def charsContains (sub : List Char) : List Char → Bool
  | [] => sub.isEmpty
  | c :: rest => charsPrefixOf sub (c :: rest) || charsContains sub rest

/-- Python `w in s` on strings: contiguous substring containment. -/
def pyInStr (w s : String) : Bool := charsContains w.data s.data

/-- Python `s.split(sep)` on character lists (one-character separator):
always returns at least one group. -/
def splitChars (sep : Char) : List Char → List (List Char)
  | [] => [[]]
  | c :: cs =>
    if c = sep then [] :: splitChars sep cs
    else
      match splitChars sep cs with
      | [] => [[c]]
      | g :: gs => (c :: g) :: gs

/-- Python `s.split(sep, 1)` on character lists: the part before the first
separator and the rest, or nothing when the separator does not occur. -/
def splitFirstChars (sep : Char) : List Char → Option (List Char × List Char)
  | [] => none
  | c :: cs =>
    if c = sep then some ([], cs)
    else (splitFirstChars sep cs).map fun p => (c :: p.1, p.2)

/-- Rendering of a number (Python prints integers without a denominator;
the decimal rendering of non-integers is abstracted by fraction notation,
no claim inspects it). -/
def numRepr (q : ℚ) : String :=
  if q.den = 1 then toString q.num else toString q

/-- Python `f-string` percent formatting `.0%`: value times 100, rounded. -/
def pctFormat (q : ℚ) : String := toString (round (q * 100)) ++ "%"

/-- JSON string escaping for one character. -/
def jsonEscChar (c : Char) : String :=
  if c = '\\' then "\\\\"
  else if c = Char.ofNat 34 then "\\" ++ String.mk [Char.ofNat 34]
  else if c = '\n' then "\\n"
  else String.mk [c]

/-- JSON string escaping. -/
def jsonEsc (s : String) : String := String.join (s.data.map jsonEscChar)

/-- Quoted JSON string. -/
def jsonQuote (s : String) : String :=
  String.mk [Char.ofNat 34] ++ jsonEsc s ++ String.mk [Char.ofNat 34]

mutual

/-- `json.dumps(v)` with Python default separators. -/
def pyJson : Val → String
  | .null => "null"
  | .bool true => "true"
  | .bool false => "false"
  | .num q => numRepr q
  | .str s => jsonQuote s
  | .arr l => "[" ++ pyJsonItems l ++ "]"
  | .obj l => "\x7b" ++ pyJsonFields l ++ "\x7d"

/-- Array items of `json.dumps`, joined by a comma and space. -/
def pyJsonItems : List Val → String
  | [] => ""
  | [v] => pyJson v
  | v :: v' :: rest => pyJson v ++ ", " ++ pyJsonItems (v' :: rest)

/-- Object fields of `json.dumps`, joined by a comma and space. -/
def pyJsonFields : List (String × Val) → String
  | [] => ""
  | [(k, v)] => jsonQuote k ++ ": " ++ pyJson v
  | (k, v) :: f :: rest => jsonQuote k ++ ": " ++ pyJson v ++ ", " ++ pyJsonFields (f :: rest)

end

/-- Indentation of `2 * n` spaces for `json.dumps(v, indent=2)`. -/
def jsonPad (n : ℕ) : String := String.mk (List.replicate (2 * n) ' ')

mutual

/-- `json.dumps(v, indent=2)`, at nesting level `lvl`. -/
def pyJsonInd : ℕ → Val → String
  | _, .null => "null"
  | _, .bool true => "true"
  | _, .bool false => "false"
  | _, .num q => numRepr q
  | _, .str s => jsonQuote s
  | _, .arr [] => "[]"
  | lvl, .arr (v :: rest) =>
      "[\n" ++ pyJsonIndItems lvl (v :: rest) ++ "\n" ++ jsonPad lvl ++ "]"
  | _, .obj [] => "\x7b\x7d"
  | lvl, .obj (f :: rest) =>
      "\x7b\n" ++ pyJsonIndFields lvl (f :: rest) ++ "\n" ++ jsonPad lvl ++ "\x7d"

/-- Array items of indented `json.dumps`, one per line. -/
def pyJsonIndItems : ℕ → List Val → String
  | _, [] => ""
  | lvl, [v] => jsonPad (lvl + 1) ++ pyJsonInd (lvl + 1) v
  | lvl, v :: v' :: rest =>
      jsonPad (lvl + 1) ++ pyJsonInd (lvl + 1) v ++ ",\n" ++
        pyJsonIndItems lvl (v' :: rest)

/-- Object fields of indented `json.dumps`, one per line. -/
def pyJsonIndFields : ℕ → List (String × Val) → String
  | _, [] => ""
  | lvl, [(k, v)] => jsonPad (lvl + 1) ++ jsonQuote k ++ ": " ++ pyJsonInd (lvl + 1) v
  | lvl, (k, v) :: f :: rest =>
      jsonPad (lvl + 1) ++ jsonQuote k ++ ": " ++ pyJsonInd (lvl + 1) v ++ ",\n" ++
        pyJsonIndFields lvl (f :: rest)

end

mutual

/-- Python `repr(v)` (s used by `str()` on containers): strings in quotes,
None/True/False capitalised. -/
def pyRepr : Val → String
  | .null => "None"
  | .bool true => "True"
  | .bool false => "False"
  | .num q => numRepr q
  | .str s => "\x27" ++ s ++ "\x27"
  | .arr l => "[" ++ pyReprItems l ++ "]"
  | .obj l => "\x7b" ++ pyReprFields l ++ "\x7d"

/-- List items of `repr`, joined by a comma and space. -/
def pyReprItems : List Val → String
  | [] => ""
  | [v] => pyRepr v
  | v :: v' :: rest => pyRepr v ++ ", " ++ pyReprItems (v' :: rest)

/-- Dict fields of `repr`, joined by a comma and space. -/
def pyReprFields : List (String × Val) → String
  | [] => ""
  | [(k, v)] => "\x27" ++ k ++ "\x27: " ++ pyRepr v
  | (k, v) :: f :: rest =>
      "\x27" ++ k ++ "\x27: " ++ pyRepr v ++ ", " ++ pyReprFields (f :: rest)

end

/-- Python `str(v)` as used in f-strings: identity on strings, `repr`-style
elsewhere. -/
def pyStr : Val → String
  | .str s => s
  | v => pyRepr v

/-! ### Data model (nexus_core/models.py) -/

/-- Raw metadata about a single tool of an MCP server (`ToolInfo`). -/
structure ToolInfo where
  name : String
  description : String := ""
  input_schema : Dict := []
  output_schema : Dict := []

/-- Record of a registered MCP server (`ServerRecord`); fields not read by
the verified components (command, args, status, profile) are omitted. -/
structure ServerRecord where
  name : String
  tools : List ToolInfo := []

/-- A validated connection between two tools (`GraphEdge`). -/
structure GraphEdge where
  source_server : String
  source_tool : String
  target_server : String
  target_tool : String
  compatibility_type : String := "unknown"
  confidence : ℚ := 0
  translation_hint : String := ""
deriving DecidableEq

/-! ### Translation engine (nexus_core/translator.py) -/

/-- One field mapping of a translation spec, as consumed by
`apply_translation`: `mapping["target_field"]` must be present (a spec
without it raises KeyError before anything is written), the other keys are
read with `mapping.get`, so they are optional. -/
structure Mapping where
  target_field : String
  source_field : Option String := none
  source : String := "output"
  required : Bool := true

/-- `dict.get(k)` where the key itself may be Python `None`
(`context.get(source_field)` with a null source field). -/
def ctxGet (context : Dict) : Option String → Option Val
  | none => none
  | some k => dictGet? context k

/-- Value resolution for one mapping (translator.py lines 87-92): from the
run context when the source is "context" or the source field is null,
otherwise from the source output.  A missing key reads as Python `None`,
i.e. `Val.null`. -/
def resolveMapping (m : Mapping) (source_output context : Dict) : Val :=
  if m.source = "context" ∨ m.source_field = none then
    match (dictGet? context m.target_field).getD .null with
    | .null => (ctxGet context m.source_field).getD .null
    | v => v
  else (dictGet? source_output (m.source_field.getD "")).getD .null

/-- Python `v is None` for an embedded value. -/
def isNone : Val → Bool
  | .null => true
  | _ => false

/-- Python `v == ""` for an embedded value. -/
def isEmptyStr : Val → Bool
  | .str s => s = ""
  | _ => false

/-- One iteration of the `apply_translation` loop: write the target field
only when the resolved value is neither `None` nor the empty string
(translator.py lines 94-96). -/
def applyMappingStep (source_output context : Dict) (result : Dict) (m : Mapping) : Dict :=
  let value := resolveMapping m source_output context
  if !isNone value && !isEmptyStr value then dictSet result m.target_field value
  else result

/-- `TranslationEngine.apply_translation`: apply each mapping in order,
starting from the empty result object. -/
def apply_translation (spec : List Mapping) (source_output context : Dict) : Dict :=
  spec.foldl (applyMappingStep source_output context) []

/-! ### Persistence of edges (nexus_core/database.py) -/

/-- One row of the `edges` table. -/
structure EdgeRow where
  source_server : String
  source_tool : String
  target_server : String
  target_tool : String
  compatibility_type : String
  confidence : ℚ
  translation_hint : String
  created_at : String
deriving DecidableEq

/-- Whether a stored row has the compound key of the given edge
(the UNIQUE constraint columns). -/
def rowKeyMatches (e : GraphEdge) (r : EdgeRow) : Bool :=
  r.source_server = e.source_server && r.source_tool = e.source_tool &&
    r.target_server = e.target_server && r.target_tool = e.target_tool

/-- `save_edge`: INSERT .. ON CONFLICT(compound key) DO UPDATE SET
compatibility_type, confidence, translation_hint (created_at is kept on
conflict).  `now` is the insertion timestamp. -/
def save_edge (db : List EdgeRow) (e : GraphEdge) (now : String) : List EdgeRow :=
  if db.any (rowKeyMatches e) then
    db.map fun r =>
      if rowKeyMatches e r then
        { r with
          compatibility_type := e.compatibility_type
          confidence := e.confidence
          translation_hint := e.translation_hint }
      else r
  else
    db ++ [⟨e.source_server, e.source_tool, e.target_server, e.target_tool,
           e.compatibility_type, e.confidence, e.translation_hint, now⟩]

/-- `edge_exists`: membership of a compound key in the stored edges. -/
def edge_exists (db : List EdgeRow) (ss st ts tt : String) : Bool :=
  db.any fun r =>
    r.source_server = ss && r.source_tool = st &&
      r.target_server = ts && r.target_tool = tt

/-! ### Capability graph builder (nexus_core/graph.py)

The oracle (`ask_gemini`) and the JSON decoding of its answer are external;
an oracle answer enters the model as the outcome of `json.loads` on the
fence-stripped response: `none` for a `JSONDecodeError`, `some v` for a
successfully decoded value `v`. -/

/-- Python `parsed.get(k, default)`: works only on a dict, anything else
raises AttributeError.  A stored value is returned even when it is null. -/
def pyDictGet (v : Val) (k : String) (default : Val) : Except String Val :=
  match v with
  | .obj l => .ok ((dictGet? l k).getD default)
  | _ => .error "AttributeError: object has no attribute get"

/-- Pydantic validation of a `str` field of `GraphEdge`. -/
def valStr : Val → Except String String
  | .str s => .ok s
  | _ => .error "ValidationError: string expected"

/-- Pydantic validation of the `float` field of `GraphEdge`. -/
def valNum : Val → Except String ℚ
  | .num q => .ok q
  | _ => .error "ValidationError: number expected"

/-- `CapabilityGraph._evaluate_edge`, from the decoded oracle response on:
a decode failure is replaced by the incompatible/0 default object, then the
three fields are read with `.get` and a `GraphEdge` is built.  The prompt
construction (pure string assembly fed to the oracle) is not modelled. -/
def evaluate_edge (src_server src_tool_name tgt_server tgt_tool_name : String)
    (response : Option Val) : Except String GraphEdge := do
  let parsed : Val :=
    match response with
    | none =>
        .obj [("compatibility_type", .str "incompatible"),
              ("confidence", .num 0),
              ("translation_hint", .str "")]
    | some v => v
  let ct ← pyDictGet parsed "compatibility_type" (.str "incompatible")
  let conf ← pyDictGet parsed "confidence" (.num 0)
  let hint ← pyDictGet parsed "translation_hint" (.str "")
  let cts ← valStr ct
  let confq ← valNum conf
  let hints ← valStr hint
  .ok ⟨src_server, src_tool_name, tgt_server, tgt_tool_name, cts, confq, hints⟩

/-- Python `key.split(".", 1)` unpacked into two names; a key without a dot
raises ValueError (the two-target unpacking fails). -/
def pySplitKey (s : String) : Except String (String × String) :=
  match splitFirstChars '.' s.data with
  | some (a, b) => .ok (String.mk a, String.mk b)
  | none => .error "ValueError: not enough values to unpack"

/-- The candidate-validation loop of `CapabilityGraph.build_edges`
(graph.py lines 66-99), acting on the stored edge rows.  `oracle n` is the
decoded response for the n-th validated candidate, `now` its insertion
timestamp.  Candidates already stored (incremental mode), with unknown
servers or with unknown tools are skipped; a validated edge is persisted
with `save_edge` unless its compatibility type is "incompatible". -/
def build_edges_go (servers : List (String × ServerRecord)) (incremental : Bool)
    (oracle : ℕ → Option Val) (now : ℕ → String) :
    List (String × String × ℚ) → ℕ → List EdgeRow → Except String (List EdgeRow)
  | [], _, db => .ok db
  | (source_key, target_key, _sim) :: rest, i, db => do
    let (src_server_name, src_tool_name) ← pySplitKey source_key
    let (tgt_server_name, tgt_tool_name) ← pySplitKey target_key
    if incremental &&
        edge_exists db src_server_name src_tool_name tgt_server_name tgt_tool_name then
      build_edges_go servers incremental oracle now rest (i + 1) db
    else
      match dictGet? servers src_server_name, dictGet? servers tgt_server_name with
      | some src_server, some tgt_server =>
        match src_server.tools.find? (fun t => t.name = src_tool_name),
              tgt_server.tools.find? (fun t => t.name = tgt_tool_name) with
        | some src_tool, some tgt_tool => do
          let edge ← evaluate_edge src_server_name src_tool.name
            tgt_server_name tgt_tool.name (oracle i)
          if edge.compatibility_type ≠ "incompatible" then
            build_edges_go servers incremental oracle now rest (i + 1)
              (save_edge db edge (now i))
          else
            build_edges_go servers incremental oracle now rest (i + 1) db
        | _, _ => build_edges_go servers incremental oracle now rest (i + 1) db
      | _, _ => build_edges_go servers incremental oracle now rest (i + 1) db

/-! ### Embedding index candidate search (nexus_core/embeddings.py)

Tool keys are the strings `server + "." + tool` kept in `tool_keys`; the
cosine similarity between a source key's output embedding and a target
key's input embedding is an external numeric computation, abstracted as a
function `sim` on the two keys.  Real cosine similarity always lies in
`[-1, 1]` (Cauchy-Schwarz); theorems take that as a hypothesis. -/

/-- `key.split(".")[0]`: the server part of a tool key (`split` always
returns at least one group, so indexing 0 never raises). -/
def keyServer (k : String) : String :=
  String.mk ((splitChars '.' k.data).headD [])

/-- The candidate accumulation loop of `find_candidates` (lines 112-126):
ordered pairs of keys, same-server pairs skipped, kept when the similarity
is at least the threshold. -/
def candidateList (tool_keys : List String) (sim : String → String → ℚ)
    (threshold : ℚ) : List (String × String × ℚ) :=
  tool_keys.flatMap fun source_key =>
    tool_keys.filterMap fun target_key =>
      if keyServer source_key = keyServer target_key then none
      else if sim source_key target_key ≥ threshold then
        some (source_key, target_key, sim source_key target_key)
      else none

/-- All ordered pairs of indexed operations whose servers differ, with
their similarities — the candidate loop without the threshold test (what
the specification calls "all non-self-server ordered pairs"). -/
def allServerPairs (tool_keys : List String) (sim : String → String → ℚ) :
    List (String × String × ℚ) :=
  tool_keys.flatMap fun source_key =>
    tool_keys.filterMap fun target_key =>
      if keyServer source_key = keyServer target_key then none
      else some (source_key, target_key, sim source_key target_key)

/-- Stable insertion (descending by similarity) used to model Python's
stable `candidates.sort(key=lambda x: -x[2])`. -/
def insertDesc (x : String × String × ℚ) :
    List (String × String × ℚ) → List (String × String × ℚ)
  | [] => [x]
  | y :: ys => if y.2.2 > x.2.2 then y :: insertDesc x ys else x :: y :: ys

/-- Stable sort, descending by similarity (any two stable sorts under the
same key agree, so insertion sort embeds Python's stable `list.sort`). -/
def sortDesc : List (String × String × ℚ) → List (String × String × ℚ)
  | [] => []
  | x :: xs => insertDesc x (sortDesc xs)

/-- `EmbeddingIndex.find_candidates`: empty with fewer than two indexed
keys, otherwise the thresholded pairs sorted by descending similarity and
truncated to `top_k * len(tool_keys)`. -/
def find_candidates (tool_keys : List String) (sim : String → String → ℚ)
    (threshold : ℚ) (top_k : ℕ) : List (String × String × ℚ) :=
  if tool_keys.length < 2 then []
  else (sortDesc (candidateList tool_keys sim threshold)).take (top_k * tool_keys.length)

/-! ### Discovery engine (nexus_core/discovery.py) -/

/-- A step of the oracle's decoded plan, as read by the loop in
`DiscoveryEngine.discover`: a JSON object whose "server"/"tool"/"reason"
keys may each be absent (`none`). -/
structure ParsedStep where
  server : Option String := none
  tool : Option String := none
  reason : Option String := none

/-- A step of a discovered pipeline (`PipelineStep`). -/
structure PipelineStep where
  server_name : String
  tool_name : String
  edge : Option GraphEdge := none

/-- A discovered pipeline (`Pipeline`). -/
structure Pipeline where
  steps : List PipelineStep
  confidence : ℚ

/-- `DiscoveryEngine._find_edge`: first exact compound-key match, else the
first edge matching the two server names only, else null. -/
def find_edge (edges : List GraphEdge) (src_server src_tool tgt_server tgt_tool : String) :
    Option GraphEdge :=
  match edges.find? (fun e =>
      e.source_server = src_server && e.source_tool = src_tool &&
        e.target_server = tgt_server && e.target_tool = tgt_tool) with
  | some e => some e
  | none =>
      edges.find? fun e =>
        e.source_server = src_server && e.target_server = tgt_server

/-- The step-building loop of `discover` (lines 127-144): steps whose
server or tool name reads as the empty string are skipped; for a kept step
at position `i > 0` the incoming edge is looked up from
`parsed["steps"][i-1]` by direct key access, so a predecessor missing the
"server" or "tool" key raises KeyError. -/
def buildStepsGo (edges : List GraphEdge) (all : List ParsedStep) :
    List ParsedStep → ℕ → Except String (List PipelineStep)
  | [], _ => .ok []
  | step_data :: rest, i =>
    let server_name := step_data.server.getD ""
    let tool_name := step_data.tool.getD ""
    if server_name = "" ∨ tool_name = "" then
      buildStepsGo edges all rest (i + 1)
    else do
      let edge : Option GraphEdge ←
        if i > 0 then
          match all.get? (i - 1) with
          | some prev =>
            match prev.server with
            | none => .error "KeyError: \x27server\x27"
            | some ps =>
              match prev.tool with
              | none => .error "KeyError: \x27tool\x27"
              | some pt => .ok (find_edge edges ps pt server_name tool_name)
          | none => .error "IndexError: list index out of range"
        else .ok none
      let tail ← buildStepsGo edges all rest (i + 1)
      .ok (⟨server_name, tool_name, edge⟩ :: tail)

/-- The step-building loop of `discover`, from the decoded plan steps. -/
def buildSteps (edges : List GraphEdge) (parsedSteps : List ParsedStep) :
    Except String (List PipelineStep) :=
  buildStepsGo edges parsedSteps parsedSteps 0

/-- `DiscoveryEngine._create_fallback_pipeline`: keyword scan of the
lowercased request, one step appended per matching keyword set, in the
fixed order; overall confidence is always 0.7. -/
def create_fallback_pipeline (request : String) : List ParsedStep × ℚ :=
  let request_lower := pyLower request
  let steps : List ParsedStep :=
    (if ["fetch", "get", "web", "url", "http"].any (fun w => pyInStr w request_lower) then
      [⟨some "web-fetcher", some "fetch_url", some "Fetch web content"⟩] else []) ++
    (if ["translate", "translation", "language"].any (fun w => pyInStr w request_lower) then
      [⟨some "translator", some "translate_text", some "Translate content"⟩] else []) ++
    (if ["summar", "condense", "brief"].any (fun w => pyInStr w request_lower) then
      [⟨some "summarizer", some "summarize_text", some "Summarize content"⟩] else []) ++
    (if ["sentiment", "emotion", "tone", "feel"].any (fun w => pyInStr w request_lower) then
      [⟨some "sentiment-analyzer", some "analyze_sentiment", some "Analyze sentiment"⟩] else []) ++
    (if ["slack", "post", "send", "message"].any (fun w => pyInStr w request_lower) then
      [⟨some "slack-sender", some "send_slack_message", some "Post to Slack"⟩] else [])
  (steps, 7 / 10)

/-- `discover` in the fallback case: the oracle response was unparseable,
the parsed plan is `create_fallback_pipeline`, and the pipeline is built
from it with its "overall_confidence" value (present, 0.7). -/
def discover_fallback (edges : List GraphEdge) (request : String) :
    Except String Pipeline :=
  let parsed := create_fallback_pipeline request
  (buildSteps edges parsed.1).map fun steps => ⟨steps, parsed.2⟩

/-! ### Pipeline executor (nexus_core/executor.py)

External effects are abstracted per step index: `specO i` is the outcome
of the inner translation attempt at step `i` (ok: the decoded, well-formed
spec; error: `generate_spec`/`apply_translation` raised), `callO i` the
outcome of `_call_tool` at step `i` (ok: the decoded output object; error:
the exception text).  Wall-clock durations are modelled as 0. -/

/-- Result of a single pipeline step (`ExecutionResult`). -/
structure ExecutionResult where
  step : PipelineStep
  input_data : Dict
  output_data : Dict
  duration : ℚ := 0
  success : Bool
  error : Option String := none

/-- The alias priority list of the required-field repair pass. -/
def TEXT_ALIASES : List String := ["content", "translated_text", "summary", "text", "result"]

/-- The alias scan of the repair pass (executor.py lines 80-84): the first
alias present in the previous output with a truthy value. -/
def firstAlias (current_data : Dict) : Option Val :=
  TEXT_ALIASES.findSome? fun a =>
    match dictGet? current_data a with
    | some v => if truthy v then some v else none
    | none => none

/-- The "text" branch of the repair pass (lines 79-88): first truthy alias
copied into "text", then, if "text" is still missing or falsy, the whole
previous output serialized (truncated to 5000 characters) as last resort. -/
def fillTextField (step_input current_data : Dict) : Dict :=
  let si1 :=
    match firstAlias current_data with
    | some v => dictSet step_input "text" v
    | none => step_input
  match dictGet? si1 "text" with
  | some v =>
      if truthy v then si1
      else dictSet si1 "text" (.str ((pyJson (.obj current_data)).take 5000))
  | none => dictSet si1 "text" (.str ((pyJson (.obj current_data)).take 5000))

/-- Python `field not in step_input or not step_input[field]` for a declared
required field name. -/
def needFillB (step_input : Dict) (s : String) : Bool :=
  match dictGet? step_input s with
  | none => true
  | some v => !truthy v

/-- The repair pass for one declared required field (lines 77-98).  The
field is an arbitrary schema value; only a missing or falsy entry is
repaired: aliases feed only the field named "text", a field named "url" is
pulled from "url" or "source_url", any other field is copied only when
present in the previous output under the same name.  A non-string field is
never a dict key, so `field in step_input` and `field in current_data` are
both false and the field is left alone. -/
def fillRequiredField (current_data step_input : Dict) (field : Val) : Dict :=
  match field with
  | .str s =>
    if needFillB step_input s then
      if s = "text" then fillTextField step_input current_data
      else if s = "url" then
        match dictGet? current_data "url" with
        | some v => dictSet step_input "url" v
        | none =>
          match dictGet? current_data "source_url" with
          | some v => dictSet step_input "url" v
          | none => step_input
      else
        match dictGet? current_data s with
        | some v => dictSet step_input s v
        | none => step_input
    else step_input
  | _ => step_input

/-- The full repair pass over the declared required fields (lines 75-98). -/
def fillRequired (required : List Val) (step_input current_data : Dict) : Dict :=
  required.foldl (fillRequiredField current_data) step_input

/-- The message-part accumulation of `_build_slack_message` (lines
139-162): summary and key points from the accumulated summarizer output,
then the sentiment line from the sentiment-analyzer output.  Python raises
on a non-iterable `key_points`, a non-string `sentiment` (`.title()`) and
a non-numeric `confidence` (`:.0%`); those raises surface as errors. -/
def slack_message_parts (all_outputs : List (String × Dict)) :
    Except String (List String) := do
  let parts0 : List String := []
  let parts1 ←
    match dictGet? all_outputs "summarizer" with
    | none => pure parts0
    | some summary_data => do
      let pa :=
        match dictGet? summary_data "summary" with
        | some v => parts0 ++ ["📝 *Summary:*\n" ++ pyStr v]
        | none => parts0
      match dictGet? summary_data "key_points" with
      | some kp =>
        if truthy kp then do
          let items ← pyIter kp
          pure (pa ++ ["\n🔑 *Key Points:*\n" ++
            String.intercalate "\n" (items.map fun p => "  • " ++ pyStr p)])
        else pure pa
      | none => pure pa
  let parts2 ←
    match dictGet? all_outputs "sentiment-analyzer" with
    | none => pure parts1
    | some sentiment_data => do
      let sentiment := (dictGet? sentiment_data "sentiment").getD (.str "unknown")
      let confidence := (dictGet? sentiment_data "confidence").getD (.num 0)
      let explanation := (dictGet? sentiment_data "explanation").getD (.str "")
      let emoji :=
        match sentiment with
        | .str "positive" => "😊"
        | .str "neutral" => "😐"
        | _ => "😟"
      let sTitle ←
        match sentiment with
        | .str s => pure (pyTitle s)
        | _ => Except.error "AttributeError: object has no attribute title"
      let confPct ←
        match confidence with
        | .num q => pure (pctFormat q)
        | .bool b => pure (if b then "100%" else "0%")
        | _ => Except.error "ValueError: invalid format specifier for object"
      let pa := parts1 ++ ["\n" ++ emoji ++ " *Sentiment:* " ++ sTitle ++
        " (" ++ confPct ++ " confidence)"]
      pure (if truthy explanation then pa ++ ["_" ++ pyStr explanation ++ "_"] else pa)
  pure parts2

/-- The final assembly of `_build_slack_message` (lines 164-174): join the
parts, or fall back to a 500-character serialization of all outputs; the
result has exactly the keys "channel" and "message_body". -/
def build_slack_message (all_outputs : List (String × Dict)) (context : Dict) :
    Except String Dict :=
  (slack_message_parts all_outputs).map fun message_parts =>
    let message_body :=
      if message_parts.isEmpty then
        (pyJsonInd 0 (.obj (all_outputs.map fun kv => (kv.1, .obj kv.2)))).take 500
      else String.intercalate "\n" message_parts
    [("channel", (dictGet? context "channel").getD (.str "#team-updates")),
     ("message_body", .str message_body)]

/-- Input preparation, the body of the outer `try` of lines 57-98: without
an incoming edge the previous data is used as is; with an edge, the
slack-sender aggregation path applies, or else the translation outcome
(empty dict on translation failure) followed by the required-field repair
pass.  An error is anything that escapes to the outer `except` of line
109. -/
def prepare_step_input (server : ServerRecord) (step : PipelineStep)
    (current_data : Dict) (all_outputs : List (String × Dict)) (context : Dict)
    (specResult : Except String (List Mapping)) : Except String Dict :=
  match step.edge with
  | none => .ok current_data
  | some _ =>
    let target_tool := server.tools.find? fun t => t.name = step.tool_name
    let target_schema : Dict :=
      match target_tool with
      | some t => t.input_schema
      | none => []
    if step.server_name = "slack-sender" then
      build_slack_message all_outputs context
    else
      let step_input :=
        match specResult with
        | .ok spec => apply_translation spec current_data context
        | .error _ => []
      let requiredRaw := (dictGet? target_schema "required").getD (.arr [])
      match pyIter requiredRaw with
      | .ok required => .ok (fillRequired required step_input current_data)
      | .error e => .error e

/-- The context merge of lines 102-107: a run-context key not already in
the input is added only when the target tool's declared input schema,
rendered as a Python string, mentions it. -/
def merge_context (server : ServerRecord) (tool_name : String)
    (step_input context : Dict) : Dict :=
  context.foldl
    (fun si kv =>
      if dictContains si kv.1 then si
      else
        match server.tools.find? (fun t => t.name = tool_name) with
        | some target_tool =>
          if pyInStr kv.1 (pyRepr (.obj target_tool.input_schema)) then
            dictSet si kv.1 kv.2
          else si
        | none => si)
    step_input

/-- The resolved invocation input of a step: prepared input plus context
merge; if preparation raised, the outer `except` falls back to the
previous data unchanged (and the merge is skipped). -/
def resolve_step_input (server : ServerRecord) (step : PipelineStep)
    (current_data : Dict) (all_outputs : List (String × Dict)) (context : Dict)
    (specResult : Except String (List Mapping)) : Dict :=
  match prepare_step_input server step current_data all_outputs context specResult with
  | .ok step_input => merge_context server step.tool_name step_input context
  | .error _ => current_data

/-- `PipelineExecutor.execute` from step index `i` on, carrying the current
data and the accumulated per-server outputs. -/
def executeFrom (servers : List (String × ServerRecord))
    (specO : ℕ → Except String (List Mapping)) (callO : ℕ → Except String Dict)
    (context : Dict) :
    List PipelineStep → ℕ → Dict → List (String × Dict) → List ExecutionResult
  | [], _, _, _ => []
  | step :: rest, i, current_data, all_outputs =>
    match dictGet? servers step.server_name with
    | none =>
      ⟨step, current_data, [], 0, false,
        some ("Server \x27" ++ step.server_name ++ "\x27 not found")⟩ ::
        executeFrom servers specO callO context rest (i + 1) current_data all_outputs
    | some server =>
      let step_input :=
        resolve_step_input server step current_data all_outputs context (specO i)
      match callO i with
      | .ok output =>
        ⟨step, step_input, output, 0, true, none⟩ ::
          executeFrom servers specO callO context rest (i + 1) output
            (dictSet all_outputs step.server_name output)
      | .error e =>
        ⟨step, step_input, [], 0, false, some e⟩ ::
          executeFrom servers specO callO context rest (i + 1) current_data all_outputs

/-- `PipelineExecutor.execute`: run every step in order, never raising. -/
def execute (servers : List (String × ServerRecord))
    (specO : ℕ → Except String (List Mapping)) (callO : ℕ → Except String Dict)
    (pipeline : Pipeline) (initial_input context : Dict) : List ExecutionResult :=
  executeFrom servers specO callO context pipeline.steps 0 initial_input []

/-- One content block of an MCP tool response; `text` is `none` when the
block has no `text` attribute. -/
structure ToolContent where
  text : Option String := none

/-- The response handling of `_call_tool` (lines 189-196): the first
content block with a text attribute is decoded as JSON; on a decode error
the raw text is wrapped as `{"result": text}`; without any text block the
empty object is returned.  `parse` is `json.loads` (`none` = decode
error). -/
def handle_tool_response (contents : List ToolContent)
    (parse : String → Option Val) : Val :=
  match contents.findSome? (fun c => c.text) with
  | some t =>
    match parse t with
    | some v => v
    | none => .obj [("result", .str t)]
  | none => .obj []

/-! ## Shared lemmas about the dict model -/

theorem dictGet?_dictSet_self {α : Type} (d : List (String × α)) (k : String) (v : α) :
    dictGet? (dictSet d k v) k = some v := by
  induction d with
  | nil => simp [dictSet, dictGet?]
  | cons kv rest ih =>
    obtain ⟨k', v'⟩ := kv
    by_cases h : k' = k
    · simp [dictSet, dictGet?, h]
    · simp [dictSet, dictGet?, h, ih]

theorem dictGet?_mem {α : Type} (d : List (String × α)) (k : String) (v : α)
    (h : dictGet? d k = some v) : (k, v) ∈ d := by
  induction d with
  | nil => simp [dictGet?] at h
  | cons kv rest ih =>
    obtain ⟨k', v'⟩ := kv
    by_cases hk : k' = k
    · simp [dictGet?, hk] at h
      subst hk h
      exact List.mem_cons_self _ _
    · simp [dictGet?, hk] at h
      exact List.mem_cons_of_mem _ (ih h)

theorem dictSet_all_values {α : Type} (p : α → Bool) (d : List (String × α))
    (k : String) (v : α) (hd : d.all (fun kv => p kv.2) = true) (hv : p v = true) :
    (dictSet d k v).all (fun kv => p kv.2) = true := by
  induction d with
  | nil => simpa [dictSet]
  | cons kv rest ih =>
    obtain ⟨k', v'⟩ := kv
    simp only [List.all_cons, Bool.and_eq_true] at hd
    by_cases h : k' = k
    · simp [dictSet, h, hv, hd.2]
    · simp [dictSet, h, hd.1, ih hd.2]

/-! ## C7: apply_translation never writes a null or empty-string value -/

theorem apply_translation_foldl_all (source_output context : Dict) :
    ∀ (spec : List Mapping) (acc : Dict),
      acc.all (fun kv => !isNone kv.2 && !isEmptyStr kv.2) = true →
      (spec.foldl (applyMappingStep source_output context) acc).all
        (fun kv => !isNone kv.2 && !isEmptyStr kv.2) = true := by
  intro spec
  induction spec with
  | nil => intro acc h; simpa using h
  | cons m rest ih =>
    intro acc h
    simp only [List.foldl_cons]
    apply ih
    unfold applyMappingStep
    by_cases hv : (!isNone (resolveMapping m source_output context) &&
        !isEmptyStr (resolveMapping m source_output context)) = true
    · simp only [hv, if_pos]
      exact dictSet_all_values (fun v => !isNone v && !isEmptyStr v) acc
        m.target_field _ h hv
    · simp only [Bool.not_eq_true] at hv
      simp [hv, h]

/-- C7: for every translation spec, source output and run-context, the
object returned by apply_translation contains no key whose resolved value
is null (None) or the empty string — such mappings are omitted entirely. -/
theorem C7_apply_translation_no_null_no_empty
    (spec : List Mapping) (source_output context : Dict) :
    (apply_translation spec source_output context).all
      (fun kv => !isNone kv.2 && !isEmptyStr kv.2) = true ∧
    (∀ k v, dictGet? (apply_translation spec source_output context) k = some v →
      isNone v = false ∧ isEmptyStr v = false) := by
  have hall := apply_translation_foldl_all source_output context spec [] (by simp)
  refine ⟨hall, fun k v hget => ?_⟩
  have hmem := dictGet?_mem _ _ _ hget
  have := List.all_eq_true.mp hall _ hmem
  simp only [Bool.and_eq_true, Bool.not_eq_true'] at this
  exact ⟨this.1, this.2⟩

/-- Witness for C7: a spec mapping "summary" to "message_body" over a
concrete source output yields an object whose single value is neither null
nor empty. -/
theorem C7_witness :
    isNone (Val.str "All good.") = false ∧ isEmptyStr (Val.str "All good.") = false :=
  (C7_apply_translation_no_null_no_empty
    [⟨"message_body", some "summary", "output", true⟩]
    [("summary", .str "All good.")] []).2 "message_body" (.str "All good.") rfl

/-! ## C3: handling of a missing or unparseable tool-response body -/

/-- C3 counterexample: a response body that is not parseable JSON is
returned as the object containing the raw text under "result", which is
not the empty object — refuting the claim that it is returned as `{}`. -/
theorem C3_counterexample :
    handle_tool_response [⟨some "not json"⟩] (fun _ => none) =
      .obj [("result", .str "not json")] ∧
    Val.obj [("result", .str "not json")] ≠ .obj [] :=
  ⟨rfl, by simp⟩

/-- C3 amended: a response with no text content block yields the empty
object; a text block whose body fails to decode as JSON yields the raw
text wrapped as the object with key "result" (not the empty object); a
decodable body yields the decoded value. -/
theorem C3_amended_tool_response (parse : String → Option Val) :
    (∀ contents : List ToolContent, contents.findSome? (fun c => c.text) = none →
      handle_tool_response contents parse = .obj []) ∧
    (∀ (contents : List ToolContent) (t : String),
      contents.findSome? (fun c => c.text) = some t → parse t = none →
      handle_tool_response contents parse = .obj [("result", .str t)]) ∧
    (∀ (contents : List ToolContent) (t : String) (v : Val),
      contents.findSome? (fun c => c.text) = some t → parse t = some v →
      handle_tool_response contents parse = v) := by
  refine ⟨fun contents h => ?_, fun contents t h hp => ?_, fun contents t v h hp => ?_⟩
  · simp [handle_tool_response, h]
  · simp [handle_tool_response, h, hp]
  · simp [handle_tool_response, h, hp]

/-- Witness for C3 amended: a response whose only content block has no
text attribute yields the empty object. -/
theorem C3_witness :
    handle_tool_response [⟨none⟩] (fun _ => none) = .obj [] :=
  (C3_amended_tool_response (fun _ => none)).1 [⟨none⟩] rfl

/-! ## C9: the deterministic keyword fallback of discovery -/

/-- C9: the fallback applied to "fetch https://x.com and post to Slack"
yields exactly a content-fetch step followed by a message-delivery step
(for any committed edge set, the delivery step picking up whatever edge
connects the two servers), and the fallback plan always carries overall
confidence 0.7. -/
theorem C9_fallback_pipeline :
    (∀ edges : List GraphEdge,
      discover_fallback edges "fetch https://x.com and post to Slack" =
        .ok ⟨[⟨"web-fetcher", "fetch_url", none⟩,
              ⟨"slack-sender", "send_slack_message",
                find_edge edges "web-fetcher" "fetch_url"
                  "slack-sender" "send_slack_message"⟩],
             7 / 10⟩) ∧
    (∀ request : String, (create_fallback_pipeline request).2 = 7 / 10) :=
  ⟨fun _ => rfl, fun _ => rfl⟩

/-! ## C1: the required-field repair pass of the executor -/

theorem findSome?_some_mem {α β : Type} (f : α → Option β) (l : List α) (b : β)
    (h : l.findSome? f = some b) : ∃ a ∈ l, f a = some b := by
  induction l with
  | nil => simp [List.findSome?] at h
  | cons x xs ih =>
    rw [List.findSome?_cons] at h
    cases hf : f x with
    | some y =>
      rw [hf] at h
      cases h
      exact ⟨x, List.mem_cons_self _ _, hf⟩
    | none =>
      rw [hf] at h
      obtain ⟨a, ha, hfa⟩ := ih h
      exact ⟨a, List.mem_cons_of_mem _ ha, hfa⟩

theorem firstAlias_truthy (current_data : Dict) (v : Val)
    (h : firstAlias current_data = some v) : truthy v = true := by
  obtain ⟨a, -, hfa⟩ := findSome?_some_mem _ _ _ h
  cases hga : dictGet? current_data a with
  | none => simp [hga] at hfa
  | some w =>
    simp only [hga] at hfa
    by_cases ht : truthy w
    · simp only [ht, if_true] at hfa
      cases hfa
      exact ht
    · simp [ht] at hfa

/-- C1 counterexample: a step with an incoming edge to a (non-slack)
server whose schema requires "channel" and "message_body", with previous
output containing "summary" but no "message_body", still resolves to an
invocation input without "message_body": the alias repair never fires for
that field, refuting the claim that it is populated from "summary". -/
theorem C1_counterexample :
    dictGet?
      (resolve_step_input
        ⟨"emailer", [⟨"send_email", "",
          [("required", .arr [.str "channel", .str "message_body"])], []⟩]⟩
        ⟨"emailer", "send_email",
          some ⟨"summarizer", "summarize_text", "emailer", "send_email",
                "translatable", 9 / 10, ""⟩⟩
        [("summary", .str "Quarterly numbers improved.")] [] []
        (.ok [])) "message_body" = none := by rfl

/-- C1 (amended): the repair pass fills a missing-or-falsy required field
named "text" from the first truthy conventional alias of the previous
output, or from a bounded serialization of the whole previous output when
no alias applies; a required field named "url" is pulled from "url" in the
previous output; any other required field (such as "message_body") is
copied only when present verbatim in the previous output, and is left
unset otherwise — the alias list never feeds a field other than "text". -/
theorem C1_repair_pass_amended :
    (∀ (step_input current_data : Dict) (v : Val),
      needFillB step_input "text" = true → firstAlias current_data = some v →
      dictGet? (fillRequiredField current_data step_input (.str "text")) "text" =
        some v) ∧
    (∀ step_input current_data : Dict,
      needFillB step_input "text" = true → firstAlias current_data = none →
      dictGet? (fillRequiredField current_data step_input (.str "text")) "text" =
        some (.str ((pyJson (.obj current_data)).take 5000))) ∧
    (∀ (step_input current_data : Dict) (v : Val),
      needFillB step_input "url" = true → dictGet? current_data "url" = some v →
      dictGet? (fillRequiredField current_data step_input (.str "url")) "url" =
        some v) ∧
    (∀ (step_input current_data : Dict) (s : String) (v : Val),
      s ≠ "text" → s ≠ "url" → needFillB step_input s = true →
      dictGet? current_data s = some v →
      dictGet? (fillRequiredField current_data step_input (.str s)) s = some v) ∧
    (∀ (step_input current_data : Dict) (s : String),
      s ≠ "text" → s ≠ "url" → dictGet? current_data s = none →
      fillRequiredField current_data step_input (.str s) = step_input) := by
  refine ⟨fun si cd v h1 h2 => ?_, fun si cd h1 h2 => ?_, fun si cd v h1 h2 => ?_,
    fun si cd s v hs1 hs2 h1 h2 => ?_, fun si cd s hs1 hs2 h2 => ?_⟩
  · have ht := firstAlias_truthy cd v h2
    simp [fillRequiredField, h1, fillTextField, h2, dictGet?_dictSet_self, ht]
  · simp only [fillRequiredField, h1, if_true, reduceIte]
    unfold fillTextField
    rw [h2]
    have h1' := h1
    unfold needFillB at h1'
    cases hg : dictGet? si "text" with
    | none => simp [hg, dictGet?_dictSet_self]
    | some w =>
      rw [hg] at h1'
      simp only [Bool.not_eq_true'] at h1'
      simp [hg, h1', dictGet?_dictSet_self]
  · simp [fillRequiredField, h1, h2, dictGet?_dictSet_self]
  · simp [fillRequiredField, h1, hs1, hs2, h2, dictGet?_dictSet_self]
  · unfold fillRequiredField
    cases hnf : needFillB si s with
    | false => simp [hnf]
    | true => simp [hnf, hs1, hs2, h2]

/-- Witness for C1 amended: with an empty translated input and a previous
output carrying only "summary", the required field "text" is repaired from
the "summary" alias. -/
theorem C1_witness :
    dictGet? (fillRequiredField [("summary", .str "Fresh numbers.")] []
      (.str "text")) "text" = some (.str "Fresh numbers.") :=
  C1_repair_pass_amended.1 [] [("summary", .str "Fresh numbers.")]
    (.str "Fresh numbers.") rfl rfl

/-! ## C8: edge persistence is an upsert on the compound key -/

theorem rowKeyMatches_payload_update (e e' : GraphEdge) (r : EdgeRow) :
    rowKeyMatches e'
      { r with
        compatibility_type := e.compatibility_type
        confidence := e.confidence
        translation_hint := e.translation_hint } = rowKeyMatches e' r := rfl

theorem countP_save_edge (db : List EdgeRow) (e : GraphEdge) (t : String) :
    (save_edge db e t).countP (rowKeyMatches e) =
      if db.any (rowKeyMatches e) then db.countP (rowKeyMatches e) else 1 := by
  unfold save_edge
  by_cases h : db.any (rowKeyMatches e) = true
  · simp only [h, if_true]
    rw [List.countP_map]
    apply List.countP_congr
    intro r _
    by_cases hr : rowKeyMatches e r = true
    · simp only [Function.comp_apply, if_pos hr, rowKeyMatches_payload_update]
    · simp only [Function.comp_apply, if_neg hr]
  · simp only [h, if_false, Bool.false_eq_true]
    rw [List.countP_append]
    have h0 : db.countP (rowKeyMatches e) = 0 := by
      rw [List.countP_eq_zero]
      intro a ha hpa
      exact h (List.any_eq_true.mpr ⟨a, ha, hpa⟩)
    simp [h0, List.countP_cons, rowKeyMatches]

theorem save_edge_filter_payload (db : List EdgeRow) (e : GraphEdge) (t : String) :
    ((save_edge db e t).filter (rowKeyMatches e)).all
      (fun r => decide (r.compatibility_type = e.compatibility_type ∧
        r.confidence = e.confidence ∧ r.translation_hint = e.translation_hint)) = true := by
  unfold save_edge
  by_cases h : db.any (rowKeyMatches e) = true
  · simp only [h, if_true]
    rw [List.filter_map, List.all_map, List.all_eq_true]
    intro r hr
    obtain ⟨-, hpr⟩ := List.mem_filter.mp hr
    simp only [Function.comp] at hpr ⊢
    by_cases hk : rowKeyMatches e r = true
    · simp [hk]
    · rw [if_neg hk] at hpr
      exact absurd hpr hk
  · simp only [h, if_false, Bool.false_eq_true]
    rw [List.filter_append]
    have h0 : db.filter (rowKeyMatches e) = [] := by
      rw [List.filter_eq_nil_iff]
      intro a ha hpa
      exact h (List.any_eq_true.mpr ⟨a, ha, hpa⟩)
    rw [h0]
    simp [rowKeyMatches]

/-- C8: saving two edges with the same compound key (possibly differing in
type, confidence or hint) into a table holding at most one row for that
key leaves exactly one stored row for the key, and its compatibility_type,
confidence and translation_hint are those of the most recent save. -/
theorem C8_save_edge_upsert (db : List EdgeRow) (e1 e2 : GraphEdge) (t1 t2 : String)
    (hkey : e1.source_server = e2.source_server ∧ e1.source_tool = e2.source_tool ∧
      e1.target_server = e2.target_server ∧ e1.target_tool = e2.target_tool)
    (huniq : db.countP (rowKeyMatches e1) ≤ 1) :
    (save_edge (save_edge db e1 t1) e2 t2).countP (rowKeyMatches e2) = 1 ∧
    ((save_edge (save_edge db e1 t1) e2 t2).filter (rowKeyMatches e2)).all
      (fun r => decide (r.compatibility_type = e2.compatibility_type ∧
        r.confidence = e2.confidence ∧ r.translation_hint = e2.translation_hint)) =
      true := by
  have hfun : rowKeyMatches e1 = rowKeyMatches e2 := by
    funext r
    unfold rowKeyMatches
    rw [hkey.1, hkey.2.1, hkey.2.2.1, hkey.2.2.2]
  have hc1 : (save_edge db e1 t1).countP (rowKeyMatches e1) = 1 := by
    rw [countP_save_edge]
    by_cases h : db.any (rowKeyMatches e1)
    · have hpos : 0 < db.countP (rowKeyMatches e1) :=
        List.countP_pos_iff.mpr (List.any_eq_true.mp h)
      simp only [h, if_true]
      omega
    · simp [h]
  have hany1 : (save_edge db e1 t1).any (rowKeyMatches e1) = true :=
    List.any_eq_true.mpr (List.countP_pos_iff.mp (by rw [hc1]; omega))
  refine ⟨?_, save_edge_filter_payload _ _ _⟩
  rw [countP_save_edge, ← hfun]
  simp [hany1, hc1]

/-- Witness for C8: two concrete saves with the same compound key but
different confidence and type leave one row carrying the second payload. -/
theorem C8_witness :
    (save_edge (save_edge [] ⟨"sum", "st", "slk", "snd", "direct", 1/2, "x"⟩ "t1")
        ⟨"sum", "st", "slk", "snd", "translatable", 3/4, "y"⟩ "t2").countP
      (rowKeyMatches ⟨"sum", "st", "slk", "snd", "translatable", 3/4, "y"⟩) = 1 ∧
    ((save_edge (save_edge [] ⟨"sum", "st", "slk", "snd", "direct", 1/2, "x"⟩ "t1")
        ⟨"sum", "st", "slk", "snd", "translatable", 3/4, "y"⟩ "t2").filter
      (rowKeyMatches ⟨"sum", "st", "slk", "snd", "translatable", 3/4, "y"⟩)).all
      (fun r => decide (r.compatibility_type = "translatable" ∧
        r.confidence = 3/4 ∧ r.translation_hint = "y")) = true :=
  C8_save_edge_upsert [] ⟨"sum", "st", "slk", "snd", "direct", 1/2, "x"⟩
    ⟨"sum", "st", "slk", "snd", "translatable", 3/4, "y"⟩ "t1" "t2"
    (by refine ⟨rfl, rfl, rfl, rfl⟩) (by decide)

/-! ## C2: the executor never aborts and reports every step -/

theorem executeFrom_length (servers : List (String × ServerRecord))
    (specO : ℕ → Except String (List Mapping)) (callO : ℕ → Except String Dict)
    (context : Dict) :
    ∀ (steps : List PipelineStep) (i : ℕ) (current : Dict)
      (allOut : List (String × Dict)),
      (executeFrom servers specO callO context steps i current allOut).length =
        steps.length := by
  intro steps
  induction steps with
  | nil => intro i current allOut; rfl
  | cons step rest ih =>
    intro i current allOut
    unfold executeFrom
    cases hs : dictGet? servers step.server_name with
    | none => simp [ih]
    | some server =>
      cases hc : callO i with
      | ok output => simp [ih]
      | error e => simp [ih]

theorem executeFrom_map_step (servers : List (String × ServerRecord))
    (specO : ℕ → Except String (List Mapping)) (callO : ℕ → Except String Dict)
    (context : Dict) :
    ∀ (steps : List PipelineStep) (i : ℕ) (current : Dict)
      (allOut : List (String × Dict)),
      (executeFrom servers specO callO context steps i current allOut).map
        ExecutionResult.step = steps := by
  intro steps
  induction steps with
  | nil => intro i current allOut; rfl
  | cons step rest ih =>
    intro i current allOut
    unfold executeFrom
    cases hs : dictGet? servers step.server_name with
    | none => simp [ih]
    | some server =>
      cases hc : callO i with
      | ok output => simp [ih]
      | error e => simp [ih]

/-- C2: every run returns exactly one ExecutionResult per pipeline step,
in step order, with no escaping exception; a step whose server is absent
from the registry yields success=false with the not-found error text and
the remaining steps run on the unchanged data state; a step whose
invocation raises yields success=false with the raised error text and
likewise does not update the current data or the accumulated outputs. -/
theorem C2_execute_always_full_results (servers : List (String × ServerRecord))
    (specO : ℕ → Except String (List Mapping)) (callO : ℕ → Except String Dict)
    (context : Dict) :
    (∀ (pipeline : Pipeline) (initial_input : Dict),
      (execute servers specO callO pipeline initial_input context).length =
        pipeline.steps.length) ∧
    (∀ (pipeline : Pipeline) (initial_input : Dict),
      (execute servers specO callO pipeline initial_input context).map
        ExecutionResult.step = pipeline.steps) ∧
    (∀ (step : PipelineStep) (rest : List PipelineStep) (i : ℕ) (current : Dict)
        (allOut : List (String × Dict)),
      dictGet? servers step.server_name = none →
      executeFrom servers specO callO context (step :: rest) i current allOut =
        ⟨step, current, [], 0, false,
          some ("Server \x27" ++ step.server_name ++ "\x27 not found")⟩ ::
          executeFrom servers specO callO context rest (i + 1) current allOut) ∧
    (∀ (step : PipelineStep) (rest : List PipelineStep) (i : ℕ) (current : Dict)
        (allOut : List (String × Dict)) (server : ServerRecord) (e : String),
      dictGet? servers step.server_name = some server → callO i = .error e →
      executeFrom servers specO callO context (step :: rest) i current allOut =
        ⟨step, resolve_step_input server step current allOut context (specO i),
          [], 0, false, some e⟩ ::
          executeFrom servers specO callO context rest (i + 1) current allOut) := by
  refine ⟨fun pipeline initial_input => ?_, fun pipeline initial_input => ?_,
    fun step rest i current allOut hs => ?_,
    fun step rest i current allOut server e hs hc => ?_⟩
  · exact executeFrom_length servers specO callO context pipeline.steps 0 initial_input []
  · exact executeFrom_map_step servers specO callO context pipeline.steps 0 initial_input []
  · conv_lhs => rw [executeFrom]
    rw [hs]
  · conv_lhs => rw [executeFrom]
    rw [hs, hc]

/-- Witness for C2: a one-step pipeline naming an unregistered server
produces exactly the single failed result with the not-found error text. -/
theorem C2_witness :
    executeFrom [] (fun _ => .error "spec") (fun _ => .error "call") []
      [⟨"ghost", "do_it", none⟩] 0 [] [] =
      [⟨⟨"ghost", "do_it", none⟩, [], [], 0, false,
        some ("Server \x27" ++ "ghost" ++ "\x27 not found")⟩] :=
  (C2_execute_always_full_results [] (fun _ => .error "spec")
    (fun _ => .error "call") []).2.2.1 ⟨"ghost", "do_it", none⟩ [] 0 [] [] rfl

/-! ## C10: the slack-sender aggregation path -/

/-- C10: the message-delivery aggregation applies exactly to a step with
an incoming edge whose server is "slack-sender" (without an edge the
previous raw data is used unchanged); the aggregated input has exactly the
two keys "channel" (run-context value, default "#team-updates") and
"message_body", the latter being a bounded serialization of all prior
outputs when neither a summarizer nor a sentiment-analyzer output is
present. -/
theorem C10_slack_aggregation :
    (∀ (server : ServerRecord) (step : PipelineStep) (current : Dict)
        (allOut : List (String × Dict)) (context : Dict)
        (specR : Except String (List Mapping)) (ed : GraphEdge),
      step.edge = some ed → step.server_name = "slack-sender" →
      prepare_step_input server step current allOut context specR =
        build_slack_message allOut context) ∧
    (∀ (server : ServerRecord) (step : PipelineStep) (current : Dict)
        (allOut : List (String × Dict)) (context : Dict)
        (specR : Except String (List Mapping)),
      step.edge = none →
      prepare_step_input server step current allOut context specR = .ok current) ∧
    (∀ (allOut : List (String × Dict)) (context : Dict) (d : Dict),
      build_slack_message allOut context = .ok d →
      d.map Prod.fst = ["channel", "message_body"] ∧
      dictGet? d "channel" =
        some ((dictGet? context "channel").getD (.str "#team-updates"))) ∧
    (∀ (allOut : List (String × Dict)) (context : Dict),
      dictGet? allOut "summarizer" = none →
      dictGet? allOut "sentiment-analyzer" = none →
      build_slack_message allOut context = .ok
        [("channel", (dictGet? context "channel").getD (.str "#team-updates")),
         ("message_body",
           .str ((pyJsonInd 0
             (.obj (allOut.map fun kv => (kv.1, .obj kv.2)))).take 500))]) := by
  refine ⟨fun server step current allOut context specR ed hed hname => ?_,
    fun server step current allOut context specR hed => ?_,
    fun allOut context d hok => ?_, fun allOut context h1 h2 => ?_⟩
  · unfold prepare_step_input
    rw [hed]
    simp [hname]
  · unfold prepare_step_input
    rw [hed]
  · unfold build_slack_message at hok
    cases hp : slack_message_parts allOut with
    | error e => rw [hp] at hok; simp [Except.map] at hok
    | ok parts =>
      rw [hp] at hok
      simp only [Except.map, Except.ok.injEq] at hok
      subst hok
      constructor
      · rfl
      · simp [dictGet?]
  · unfold build_slack_message slack_message_parts
    rw [h1, h2]
    simp [Except.map, pure, Except.pure, Bind.bind, Except.bind, List.isEmpty]

/-- Witness for C10: with one accumulated web-fetcher output and an empty
run-context, the slack input is the default channel plus the serialized
outputs. -/
theorem C10_witness :
    build_slack_message [("web-fetcher", [("content", .str "body text")])] [] =
      .ok [("channel",
              (dictGet? ([] : Dict) "channel").getD (.str "#team-updates")),
           ("message_body",
             .str ((pyJsonInd 0
               (.obj ([("web-fetcher", [("content", .str "body text")])].map
                 fun kv => (kv.1, .obj kv.2)))).take 500))] :=
  C10_slack_aggregation.2.2.2 [("web-fetcher", [("content", .str "body text")])]
    [] rfl rfl

/-! ## C5: discovery and invalid plan steps -/

/-- C5 counterexample: a parsed step missing its "server" key that is
immediately followed by a valid step makes the step-building loop raise
KeyError (via `parsed["steps"][i-1]["server"]`) instead of being silently
skipped. -/
theorem C5_counterexample :
    buildSteps []
      [⟨none, some "fetch_url", none⟩, ⟨some "web-fetcher", some "fetch_url", none⟩] =
      .error "KeyError: \x27server\x27" := by rfl

theorem buildStepsGo_ok (edges : List GraphEdge) (all : List ParsedStep)
    (hall : ∀ sd ∈ all, sd.server ≠ none ∧ sd.tool ≠ none) :
    ∀ (rest : List ParsedStep) (i : ℕ), i + rest.length ≤ all.length →
      ∃ steps, buildStepsGo edges all rest i = .ok steps ∧
        steps.map (fun s => (s.server_name, s.tool_name)) =
          (rest.filter fun sd =>
            !decide (sd.server.getD "" = "" ∨ sd.tool.getD "" = "")).map
            fun sd => (sd.server.getD "", sd.tool.getD "") := by
  intro rest
  induction rest with
  | nil => exact fun i _ => ⟨[], rfl, rfl⟩
  | cons sd rest ih =>
    intro i hlen
    simp only [List.length_cons] at hlen
    obtain ⟨steps, hok, hmap⟩ := ih (i + 1) (by omega)
    by_cases hskip : sd.server.getD "" = "" ∨ sd.tool.getD "" = ""
    · refine ⟨steps, ?_, ?_⟩
      · unfold buildStepsGo
        rw [if_pos hskip]
        exact hok
      · rw [hmap, List.filter_cons]
        simp [hskip]
    · by_cases hi : i > 0
      · have hi1 : i - 1 < all.length := by omega
        have hprev : all.get? (i - 1) = some (all.get ⟨i - 1, hi1⟩) :=
          List.get?_eq_get hi1
        obtain ⟨hps0, hpt0⟩ := hall _ (List.get?_mem hprev)
        obtain ⟨ps, hps⟩ := Option.ne_none_iff_exists'.mp hps0
        obtain ⟨pt, hpt⟩ := Option.ne_none_iff_exists'.mp hpt0
        refine ⟨⟨sd.server.getD "", sd.tool.getD "",
          find_edge edges ps pt (sd.server.getD "") (sd.tool.getD "")⟩ :: steps, ?_, ?_⟩
        · unfold buildStepsGo
          rw [if_neg hskip]
          simp only [Bind.bind, Except.bind, if_pos hi, hprev, hps, hpt, hok]
        · rw [List.filter_cons]
          simp [hskip, hmap]
      · refine ⟨⟨sd.server.getD "", sd.tool.getD "", none⟩ :: steps, ?_, ?_⟩
        · unfold buildStepsGo
          rw [if_neg hskip]
          simp only [Bind.bind, Except.bind, if_neg hi, hok]
        · rw [List.filter_cons]
          simp [hskip, hmap]

/-- C5 (amended): steps of the parsed plan whose server or operation name
reads as empty are silently skipped and the pipeline contains exactly the
valid steps in order, provided every parsed step has its "server" and
"tool" keys present; a step missing one of those keys immediately before a
valid step instead raises KeyError out of discover. -/
theorem C5_discover_skips_invalid (edges : List GraphEdge)
    (parsedSteps : List ParsedStep)
    (hall : ∀ sd ∈ parsedSteps, sd.server ≠ none ∧ sd.tool ≠ none) :
    ∃ steps, buildSteps edges parsedSteps = .ok steps ∧
      steps.map (fun s => (s.server_name, s.tool_name)) =
        (parsedSteps.filter fun sd =>
          !decide (sd.server.getD "" = "" ∨ sd.tool.getD "" = "")).map
          fun sd => (sd.server.getD "", sd.tool.getD "") :=
  buildStepsGo_ok edges parsedSteps hall parsedSteps 0 (by omega)

/-- Witness for C5 amended: a plan with one valid step followed by one
empty-named step yields exactly the valid step. -/
theorem C5_witness :
    ∃ steps, buildSteps []
        [⟨some "web-fetcher", some "fetch_url", none⟩, ⟨some "", some "", none⟩] =
        .ok steps ∧
      steps.map (fun s => (s.server_name, s.tool_name)) =
        ([(⟨some "web-fetcher", some "fetch_url", none⟩ : ParsedStep),
          ⟨some "", some "", none⟩].filter fun sd =>
          !decide (sd.server.getD "" = "" ∨ sd.tool.getD "" = "")).map
          fun sd => (sd.server.getD "", sd.tool.getD "") :=
  C5_discover_skips_invalid []
    [⟨some "web-fetcher", some "fetch_url", none⟩, ⟨some "", some "", none⟩]
    (by decide)

/-! ## C6: oracle parse failures during edge validation, and persistence -/

/-- C6 counterexample: an oracle response that decodes to a JSON array —
which certainly fails to parse as the expected structure — makes the
validation loop raise AttributeError (`parsed.get` on a non-dict) instead
of being treated as an incompatible edge. -/
theorem C6_counterexample :
    build_edges_go
      [("alpha", ⟨"alpha", [⟨"t", "", [], []⟩]⟩),
       ("beta", ⟨"beta", [⟨"u", "", [], []⟩]⟩)]
      false (fun _ => some (.arr [])) (fun _ => "ts")
      [("alpha.t", "beta.u", 1/2)] 0 [] =
      .error "AttributeError: object has no attribute get" := by rfl

theorem save_edge_all_types (db : List EdgeRow) (e : GraphEdge) (t : String)
    (p : String → Bool)
    (hdb : db.all (fun r => p r.compatibility_type) = true)
    (he : p e.compatibility_type = true) :
    (save_edge db e t).all (fun r => p r.compatibility_type) = true := by
  unfold save_edge
  by_cases h : db.any (rowKeyMatches e) = true
  · simp only [h, if_true]
    rw [List.all_map, List.all_eq_true]
    intro r hr
    by_cases hk : rowKeyMatches e r = true
    · simp [Function.comp, hk, he]
    · simp only [Function.comp_apply, if_neg hk]
      exact List.all_eq_true.mp hdb r hr
  · simp only [h, if_false, Bool.false_eq_true]
    rw [List.all_append]
    simp [hdb, he]

/-- C6 (amended): an oracle response that fails to decode as JSON is
treated as compatibility_type "incompatible" with confidence 0 (and such
an edge is never persisted, as is any other incompatible edge: a run of
the validation loop never adds an incompatible row to an
incompatible-free store); a validated edge of any other type is persisted
with save_edge, i.e. upserted by its compound key.  A response that
decodes to a non-object value instead raises (see the counterexample). -/
theorem C6_evaluate_edge_and_persistence :
    (∀ ss st ts tt : String,
      evaluate_edge ss st ts tt none =
        .ok ⟨ss, st, ts, tt, "incompatible", 0, ""⟩) ∧
    (∀ (servers : List (String × ServerRecord)) (incremental : Bool)
        (oracle : ℕ → Option Val) (now : ℕ → String)
        (cands : List (String × String × ℚ)) (i : ℕ) (db db' : List EdgeRow),
      build_edges_go servers incremental oracle now cands i db = .ok db' →
      db.all (fun r => !decide (r.compatibility_type = "incompatible")) = true →
      db'.all (fun r => !decide (r.compatibility_type = "incompatible")) = true) ∧
    (∀ (servers : List (String × ServerRecord)) (incremental : Bool)
        (oracle : ℕ → Option Val) (now : ℕ → String)
        (source_key target_key : String) (simv : ℚ)
        (rest : List (String × String × ℚ)) (i : ℕ) (db : List EdgeRow)
        (ss st ts tt : String) (srv tsv : ServerRecord) (stool ttool : ToolInfo)
        (edge : GraphEdge),
      pySplitKey source_key = .ok (ss, st) →
      pySplitKey target_key = .ok (ts, tt) →
      (incremental && edge_exists db ss st ts tt) = false →
      dictGet? servers ss = some srv → dictGet? servers ts = some tsv →
      srv.tools.find? (fun t => t.name = st) = some stool →
      tsv.tools.find? (fun t => t.name = tt) = some ttool →
      evaluate_edge ss stool.name ts ttool.name (oracle i) = .ok edge →
      edge.compatibility_type ≠ "incompatible" →
      build_edges_go servers incremental oracle now
        ((source_key, target_key, simv) :: rest) i db =
        build_edges_go servers incremental oracle now rest (i + 1)
          (save_edge db edge (now i))) := by
  refine ⟨fun ss st ts tt => rfl, ?_, ?_⟩
  · intro servers incremental oracle now cands
    induction cands with
    | nil =>
      intro i db db' hok hdb
      simp only [build_edges_go, Except.ok.injEq] at hok
      rwa [← hok]
    | cons c rest ih =>
      intro i db db' hok hdb
      obtain ⟨sk, tk, simv⟩ := c
      rw [build_edges_go] at hok
      cases hs1 : pySplitKey sk with
      | error e => rw [hs1] at hok; simp [Bind.bind, Except.bind] at hok
      | ok p1 =>
        obtain ⟨ss, st⟩ := p1
        rw [hs1] at hok
        cases hs2 : pySplitKey tk with
        | error e => rw [hs2] at hok; simp [Bind.bind, Except.bind] at hok
        | ok p2 =>
          obtain ⟨ts, tt⟩ := p2
          rw [hs2] at hok
          simp only [Bind.bind, Except.bind] at hok
          by_cases hex : (incremental && edge_exists db ss st ts tt) = true
          · rw [if_pos hex] at hok
            exact ih (i + 1) db db' hok hdb
          · rw [if_neg hex] at hok
            cases hsv : dictGet? servers ss with
            | none =>
              simp only [hsv] at hok
              exact ih (i + 1) db db' hok hdb
            | some srv =>
              simp only [hsv] at hok
              cases htv : dictGet? servers ts with
              | none =>
                simp only [htv] at hok
                exact ih (i + 1) db db' hok hdb
              | some tsv =>
                simp only [htv] at hok
                cases hst : srv.tools.find? (fun t => t.name = st) with
                | none =>
                  simp only [hst] at hok
                  exact ih (i + 1) db db' hok hdb
                | some stool =>
                  simp only [hst] at hok
                  cases htt : tsv.tools.find? (fun t => t.name = tt) with
                  | none =>
                    simp only [htt] at hok
                    exact ih (i + 1) db db' hok hdb
                  | some ttool =>
                    simp only [htt] at hok
                    cases hev : evaluate_edge ss stool.name ts ttool.name (oracle i) with
                    | error e =>
                      simp only [hev] at hok
                      exact Except.noConfusion hok
                    | ok edge =>
                      simp only [hev] at hok
                      by_cases hct : edge.compatibility_type = "incompatible"
                      · rw [if_neg (by simp [hct])] at hok
                        exact ih (i + 1) db db' hok hdb
                      · rw [if_pos hct] at hok
                        exact ih (i + 1) _ db' hok
                          (save_edge_all_types db edge (now i)
                            (fun s => !decide (s = "incompatible")) hdb
                            (by simp [hct]))
  · intro servers incremental oracle now source_key target_key simv rest i db
      ss st ts tt srv tsv stool ttool edge h1 h2 h3 h4 h5 h6 h7 h8 h9
    rw [build_edges_go, h1, h2]
    simp only [Bind.bind, Except.bind]
    rw [if_neg (by rw [h3]; exact Bool.false_ne_true)]
    simp only [h4, h5, h6, h7, h8]
    rw [if_pos h9]

/-- Witness for C6: one validated "direct" candidate over an
incompatible-free store leaves an incompatible-free store. -/
theorem C6_witness :
    ([(⟨"alpha", "t", "beta", "u", "direct", 9/10, "", "ts"⟩ : EdgeRow)].all
      (fun r => !decide (r.compatibility_type = "incompatible"))) = true :=
  C6_evaluate_edge_and_persistence.2.1
    [("alpha", ⟨"alpha", [⟨"t", "", [], []⟩]⟩),
     ("beta", ⟨"beta", [⟨"u", "", [], []⟩]⟩)]
    false
    (fun _ => some (.obj [("compatibility_type", .str "direct"),
      ("confidence", .num (9/10)), ("translation_hint", .str "")]))
    (fun _ => "ts")
    [("alpha.t", "beta.u", 1/2)] 0 [] _ rfl rfl

/-! ## C4: find_candidates at extreme thresholds -/

theorem insertDesc_perm (x : String × String × ℚ) (l : List (String × String × ℚ)) :
    (insertDesc x l).Perm (x :: l) := by
  induction l with
  | nil => exact List.Perm.refl _
  | cons y ys ih =>
    unfold insertDesc
    by_cases h : y.2.2 > x.2.2
    · rw [if_pos h]
      exact (List.Perm.cons y ih).trans (List.Perm.swap x y ys)
    · rw [if_neg h]

theorem sortDesc_perm (l : List (String × String × ℚ)) : (sortDesc l).Perm l := by
  induction l with
  | nil => exact List.Perm.refl _
  | cons x xs ih =>
    exact (insertDesc_perm x (sortDesc xs)).trans (List.Perm.cons x ih)

theorem candidateList_eq_allServerPairs (tool_keys : List String)
    (sim : String → String → ℚ) (threshold : ℚ)
    (h : ∀ s t, threshold ≤ sim s t) :
    candidateList tool_keys sim threshold = allServerPairs tool_keys sim := by
  unfold candidateList allServerPairs
  have hfn : (fun source_key => tool_keys.filterMap fun target_key =>
      if keyServer source_key = keyServer target_key then none
      else if sim source_key target_key ≥ threshold then
        some (source_key, target_key, sim source_key target_key) else none) =
      fun source_key => tool_keys.filterMap fun target_key =>
        if keyServer source_key = keyServer target_key then none
        else some (source_key, target_key, sim source_key target_key) := by
    funext s
    congr 1
    funext t
    by_cases hk : keyServer s = keyServer t
    · rw [if_pos hk, if_pos hk]
    · rw [if_neg hk, if_neg hk, if_pos (h s t)]
  rw [hfn]

theorem candidateList_eq_nil_of_high (tool_keys : List String)
    (sim : String → String → ℚ) (threshold : ℚ)
    (h : ∀ s t, ¬ threshold ≤ sim s t) :
    candidateList tool_keys sim threshold = [] := by
  unfold candidateList
  rw [List.flatMap_eq_nil_iff]
  intro s _
  rw [List.filterMap_eq_nil_iff]
  intro t _
  by_cases hk : keyServer s = keyServer t
  · rw [if_pos hk]
  · rw [if_neg hk, if_neg (h s t)]

theorem allServerPairs_short (tool_keys : List String) (sim : String → String → ℚ)
    (h : tool_keys.length < 2) : allServerPairs tool_keys sim = [] := by
  cases tool_keys with
  | nil => rfl
  | cons a l =>
    cases l with
    | nil => simp [allServerPairs]
    | cons b m => simp only [List.length_cons] at h; omega

set_option maxRecDepth 4000 in
/-- C4 counterexample: with 12 single-tool servers indexed and threshold
−1.1, all 132 non-self-server ordered pairs clear the threshold, but the
`top_k * len(tool_keys)` truncation (top_k = 10 by default) returns only
120 of them — refuting "returns all ordered pairs whose servers differ". -/
theorem C4_counterexample :
    (find_candidates
      ["s0.t", "s1.t", "s2.t", "s3.t", "s4.t", "s5.t", "s6.t", "s7.t",
       "s8.t", "s9.t", "s10.t", "s11.t"] (fun _ _ => 0) (-(11 / 10)) 10).length =
      120 ∧
    (allServerPairs
      ["s0.t", "s1.t", "s2.t", "s3.t", "s4.t", "s5.t", "s6.t", "s7.t",
       "s8.t", "s9.t", "s10.t", "s11.t"] (fun _ _ => 0)).length = 132 := by
  have hpairs : (allServerPairs
      ["s0.t", "s1.t", "s2.t", "s3.t", "s4.t", "s5.t", "s6.t", "s7.t",
       "s8.t", "s9.t", "s10.t", "s11.t"] (fun _ _ => 0)).length = 132 := by decide
  refine ⟨?_, hpairs⟩
  unfold find_candidates
  rw [if_neg (by decide),
    candidateList_eq_allServerPairs _ _ _ (fun s t => by norm_num),
    List.length_take, (sortDesc_perm _).length_eq, hpairs]
  decide

/-- C4 (amended): with cosine similarities (which lie in [−1, 1]),
threshold 1.1 always yields the empty candidate list, and fewer than two
indexed operations always yield the empty list; threshold −1.1 yields a
permutation of all non-self-server ordered pairs whenever their number is
within the `top_k * indexedOperationCount` cap (otherwise the list is
truncated to that cap, see the counterexample); and every returned
candidate pair has distinct servers. -/
theorem C4_find_candidates_amended (tool_keys : List String)
    (sim : String → String → ℚ) (top_k : ℕ)
    (hsim : ∀ s t, -1 ≤ sim s t ∧ sim s t ≤ 1) :
    find_candidates tool_keys sim (11 / 10) top_k = [] ∧
    (tool_keys.length < 2 →
      ∀ threshold, find_candidates tool_keys sim threshold top_k = []) ∧
    ((allServerPairs tool_keys sim).length ≤ top_k * tool_keys.length →
      (find_candidates tool_keys sim (-(11 / 10)) top_k).Perm
        (allServerPairs tool_keys sim)) ∧
    (∀ threshold c, c ∈ find_candidates tool_keys sim threshold top_k →
      keyServer c.1 ≠ keyServer c.2.1) := by
  refine ⟨?_, ?_, ?_, ?_⟩
  · unfold find_candidates
    by_cases hlen : tool_keys.length < 2
    · rw [if_pos hlen]
    · rw [if_neg hlen,
        candidateList_eq_nil_of_high tool_keys sim (11 / 10)
          (fun s t hc => by have h2 := (hsim s t).2; linarith)]
      simp [sortDesc]
  · intro hlen threshold
    unfold find_candidates
    rw [if_pos hlen]
  · intro hbound
    unfold find_candidates
    by_cases hlen : tool_keys.length < 2
    · rw [if_pos hlen, allServerPairs_short tool_keys sim hlen]
    · rw [if_neg hlen,
        candidateList_eq_allServerPairs tool_keys sim (-(11 / 10))
          (fun s t => by have h1 := (hsim s t).1; linarith),
        List.take_of_length_le (by rw [(sortDesc_perm _).length_eq]; exact hbound)]
      exact sortDesc_perm _
  · intro threshold c hc
    unfold find_candidates at hc
    by_cases hlen : tool_keys.length < 2
    · rw [if_pos hlen] at hc
      simp at hc
    · rw [if_neg hlen] at hc
      have hc2 := List.take_subset _ _ hc
      have hc3 := (sortDesc_perm _).mem_iff.mp hc2
      unfold candidateList at hc3
      obtain ⟨s, -, hs⟩ := List.mem_flatMap.mp hc3
      obtain ⟨t, -, ht⟩ := List.mem_filterMap.mp hs
      by_cases hk : keyServer s = keyServer t
      · rw [if_pos hk] at ht
        exact Option.noConfusion ht
      · rw [if_neg hk] at ht
        by_cases hth : sim s t ≥ threshold
        · rw [if_pos hth] at ht
          obtain rfl : (s, t, sim s t) = c := Option.some.inj ht
          exact hk
        · rw [if_neg hth] at ht
          exact Option.noConfusion ht

/-- Witness for C4 amended: two tools on distinct servers and constant
similarity one half, threshold −1.1: the result is a permutation of the
two cross-server pairs. -/
theorem C4_witness :
    (find_candidates ["a.x", "b.y"] (fun _ _ => 1 / 2) (-(11 / 10)) 10).Perm
      (allServerPairs ["a.x", "b.y"] (fun _ _ => 1 / 2)) :=
  (C4_find_candidates_amended ["a.x", "b.y"] (fun _ _ => 1 / 2) 10
    (fun s t => by constructor <;> norm_num)).2.2.1 (by decide)

end Nexus
